import Mathlib

/-!
# Upload confirmation job: embedding of `main.go`

A shallow embedding of the Lambda handler of the upload confirmation job
(`handler`, `sanityCheck`, `updateStatus`, `openDbConnection`,
`closeDbConnection`, `loadConfig`) together with the properties its
specification states about it.

Conventions of the embedding:

* a Go `string` is a Lean `String`; the separator `/` is one ASCII byte, so
  splitting a UTF-8 string at that byte and at that character agree;
* a Go `error` is an `Option String`: `none` is `nil`, `some msg` is an error
  whose `Error()` text is `msg`;
* `int64` results of the driver are passed through unchanged and are `Int`;
* `database/sql` is a parameter (`SqlDriver`): the state `σ` stands for
  everything reachable through the `*sql.DB` handle;
* the observable effects (`log.Print*` lines and `db.Exec` calls) are appended
  to a trace, each tagged with the loop iteration in which it happened; a
  `db.Exec` call is recorded by the handle itself (`traced`), with the query and
  the arguments the call was made with.
-/

set_option autoImplicit false

namespace UploadConfirmation

/-! ## Go library functions used by the program -/

/-- Pieces of a character list between the occurrences of `sep`
(`strings.Split` on the level of characters). -/
def splitChars (sep : Char) : List Char → List (List Char)
  | [] => [[]]
  | c :: cs =>
    if c = sep then [] :: splitChars sep cs
    else
      match splitChars sep cs with
      | [] => [[c]]
      | t :: ts => (c :: t) :: ts

/-- Go `strings.Split(s, sep)` for a separator of one character, as at the
only call site (`strings.Split(key, "/")`). -/
def stringsSplit (s : String) (sep : Char) : List String :=
  (splitChars sep s.data).map String.mk

/-- Go `strings.ToUpper` restricted to ASCII strings: it agrees with the Go
function on every string of ASCII characters and is not meant for others. The
program only upper-cases the prefix `FA` and its two ASCII option names
(`loadConfig_names`). -/
def stringsToUpper (s : String) : String :=
  String.mk (s.data.map Char.toUpper)

/-- Go `fmt` verb `%s` applied to a `[]string`: the elements separated by one
blank, in square brackets. -/
def fmtStrings (xs : List String) : String :=
  "[" ++ " ".intercalate xs ++ "]"

/-- Go `fmt` verb `%d` applied to an `int` (here always a length). -/
def fmtNat (n : Nat) : String := toString n

/-- Go `fmt` verb `%d` applied to an `int64`. -/
def fmtInt (n : Int) : String := toString n

/-! ## Data model -/

/-- The four consumed fields of one `events.S3EventRecord`
(`EventName`, `S3.Bucket.Name`, `S3.Object.Key`). -/
structure S3EventRecord where
  eventName : String
  bucketName : String
  objectKey : String
  deriving DecidableEq, Repr

/-- The batch `events.S3Event`. -/
structure S3Event where
  records : List S3EventRecord
  deriving DecidableEq, Repr

/-- A `sql.Result`: each accessor returns a value or an error. -/
structure SqlResult where
  rowsAffected : Except String Int
  lastInsertId : Except String Int

/-- The part of `database/sql` the program calls. `sqlOpen driverName dsn` is
`sql.Open`; `exec db query args` is `db.Exec(query, args...)` and returns the
state after the call with the result or an error; `close db` is `db.Close()`. -/
structure SqlDriver (σ : Type) where
  sqlOpen : String → String → Except String σ
  exec : σ → String → List String → σ × Except String SqlResult
  close : σ → σ × Option String

/-- One observable effect. -/
inductive Effect where
  | log (line : String)
  | exec (query : String) (args : List String)
  deriving DecidableEq, Repr

/-- An effect with the loop iteration it happened in (`none` outside the loop). -/
structure Event where
  iter : Option Nat
  eff : Effect
  deriving DecidableEq, Repr

/-- State threaded through the handler: the database and the trace so far. -/
structure World (σ : Type) where
  db : σ
  trace : List Event

/-- How an invocation ends: a normal return with the returned `error`, or a panic. -/
inductive Outcome where
  | returned (err : Option String)
  | panicked (msg : String)
  deriving DecidableEq, Repr

/-- What an invocation of `handler` leaves behind. `db` is `none` when no
handle was ever obtained. -/
structure HandlerResult (σ : Type) where
  outcome : Outcome
  trace : List Event
  db : Option σ

/-- The configuration object returned by `loadConfig`, seen through `GetString`. -/
structure Viper where
  GetString : String → String

/-- The handle as seen in iteration `i`: every `db.Exec` made through it is
first recorded in the trace, with the very query and arguments of the call, and
then run by the driver `d`. Opening and closing are passed on unrecorded. -/
def traced {σ : Type} (d : SqlDriver σ) (i : Nat) : SqlDriver (World σ) :=
  { sqlOpen := fun driverName dsn =>
      match d.sqlOpen driverName dsn with
      | .error err => .error err
      | .ok db => .ok ⟨db, []⟩
    exec := fun w query args =>
      (⟨(d.exec w.db query args).1, w.trace ++ [⟨some i, .exec query args⟩]⟩,
        (d.exec w.db query args).2)
    close := fun w => (⟨(d.close w.db).1, w.trace⟩, (d.close w.db).2) }

/-! ## The program -/

/-- The constant `expectedEventName` of `sanityCheck`. -/
def expectedEventName : String := "ObjectCreated:Put"

/-- The statement text passed to `db.Exec` in `updateStatus`. -/
def updateStatement : String :=
  "update UploadRequests set status_id = 2 where user_id = ? and object_key = ?"

/-- `loadConfig`: a viper with prefix `FA` and `AutomaticEnv`; `GetString key`
reads the environment variable `FA_<KEY>` and yields the empty string for an
unset one. `env` is the process environment. -/
def loadConfig (env : String → Option String) : Viper :=
  { GetString := fun key => (env (stringsToUpper ("FA" ++ "_" ++ key))).getD "" }

/-- `sanityCheck` (main.go lines 55-69). -/
def sanityCheck (bucket expectedBucket eventName : String) (tokens : List String) :
    Option String :=
  if bucket ≠ expectedBucket then
    some ("WARN: Skipped event because of bucket missmatch. Expected: '" ++ expectedBucket
      ++ "', Actual: '" ++ bucket ++ "'")
  else if eventName ≠ expectedEventName then
    some ("WARN: Skipped event because of eventName missmatch. Expected: '" ++ expectedEventName
      ++ "', Actual: '" ++ eventName ++ "'")
  else if tokens.length ≠ 2 then
    some ("ERROR: Object key has more parts. Expected: 2, Actual: " ++ fmtNat tokens.length
      ++ ", " ++ fmtStrings tokens)
  else
    none

/-- `updateStatus` (main.go lines 71-89). Returns the database state after the
call and the triple `(rowsAffected, lastUpdateId, err)`. -/
def updateStatus {σ : Type} (d : SqlDriver σ) (db : σ) (userId objectKey : String) :
    σ × Int × Int × Option String :=
  match d.exec db updateStatement [userId, objectKey] with
  | (db1, .error _) =>
    (db1, 0, 0, some ("ERROR: Failed to update metadata database for userId '" ++ userId
      ++ "' and objectKey '" ++ objectKey ++ "'"))
  | (db1, .ok exec) =>
    match exec.rowsAffected with
    | .error _ =>
      (db1, 0, 0, some ("ERROR: Failed to get affected rows for userId '" ++ userId
        ++ "' and objectKey '" ++ objectKey ++ "'"))
    | .ok rowsAffected =>
      match exec.lastInsertId with
      | .error _ =>
        (db1, 0, 0, some ("ERROR: Failed to get last update id for userId '" ++ userId
          ++ "' and objectKey '" ++ objectKey ++ "'"))
      | .ok lastUpdateId => (db1, rowsAffected, lastUpdateId, none)

/-- `openDbConnection` (main.go lines 91-97): the handle, or the text of the
`log.Panic` when `sql.Open` reports an error. -/
def openDbConnection {σ : Type} (d : SqlDriver σ) (conStr : String) : Except String σ :=
  match d.sqlOpen "mysql" conStr with
  | .error err => .error ("Can't connect to a database!" ++ err)
  | .ok db => .ok db

/-- `closeDbConnection` (main.go lines 99-104): the state after `db.Close()` and
the text of the `log.Panic` when it reports an error. -/
def closeDbConnection {σ : Type} (d : SqlDriver σ) (db : σ) : σ × Option String :=
  match d.close db with
  | (db1, some err) => (db1, some ("Can't close a connection to a database!" ++ err))
  | (db1, none) => (db1, none)

/-- The log line written at the top of every iteration (main.go line 31). -/
def receivedLine (eventName bucket key : String) : String :=
  "INFO: Received event '" ++ eventName ++ "' for '" ++ bucket ++ "/" ++ key ++ "'."

/-- The log line written after a successful update (main.go line 45). -/
def updateDoneLine (lastUpdateId rowsAffected : Int) : String :=
  "INFO: Update done. LastUpdateId: " ++ fmtInt lastUpdateId ++ ", RowsAffected: "
    ++ fmtInt rowsAffected

/-- The text of Go's run-time panic for `xs[i]` with `i` out of range. -/
def indexPanic (i len : Nat) : String :=
  "runtime error: index out of range [" ++ fmtNat i ++ "] with length " ++ fmtNat len

/-- The body of the `for` loop of `handler` (main.go lines 27-45) in iteration
`i`. `.ok w` is the state at the end of the iteration (also after `continue`);
`.error (w, msg)` is a panic with text `msg` in state `w`. `updateStatus` gets
the recording handle `traced d i`, so the trace shows what it executes. -/
def handlerBody {σ : Type} (d : SqlDriver σ) (expectedBucket : String) (i : Nat)
    (w : World σ) (record : S3EventRecord) : Except (World σ × String) (World σ) :=
  let bucket := record.bucketName
  let eventName := record.eventName
  let key := record.objectKey
  let tokens := stringsSplit key '/'
  let t1 := w.trace ++ [⟨some i, .log (receivedLine eventName bucket key)⟩]
  match sanityCheck bucket expectedBucket eventName tokens with
  | some err => .ok ⟨w.db, t1 ++ [⟨some i, .log err⟩]⟩
  | none =>
    match tokens.get? 0 with
    | none => .error (⟨w.db, t1⟩, indexPanic 0 tokens.length)
    | some userId =>
      match tokens.get? 1 with
      | none => .error (⟨w.db, t1⟩, indexPanic 1 tokens.length)
      | some objectKey =>
        match updateStatus (traced d i) ⟨w.db, t1⟩ userId objectKey with
        | (w1, _, _, some err) => .ok ⟨w1.db, w1.trace ++ [⟨some i, .log err⟩]⟩
        | (w1, rowsAffected, lastUpdateId, none) =>
          .ok ⟨w1.db,
            w1.trace ++ [⟨some i, .log (updateDoneLine lastUpdateId rowsAffected)⟩]⟩

/-- The `for _, record := range s3Event.Records` loop of `handler`, from
iteration `i` on. -/
def processRecords {σ : Type} (d : SqlDriver σ) (expectedBucket : String) :
    Nat → List S3EventRecord → World σ → Except (World σ × String) (World σ)
  | _, [], w => .ok w
  | i, record :: rest, w =>
    match handlerBody d expectedBucket i w record with
    | .error e => .error e
    | .ok w1 => processRecords d expectedBucket (i + 1) rest w1

/-- The deferred `closeDbConnection(db)` of `handler`: runs on every exit of
the function once the handle exists; a panic of its own replaces the outcome. -/
def runDeferredClose {σ : Type} (d : SqlDriver σ) (w : World σ) (outcome : Outcome) :
    HandlerResult σ :=
  match closeDbConnection d w.db with
  | (db1, some msg) =>
    { outcome := .panicked msg, trace := w.trace ++ [⟨none, .log msg⟩], db := some db1 }
  | (db1, none) => { outcome := outcome, trace := w.trace, db := some db1 }

/-- `handler` (main.go lines 16-49). `env` is the process environment read by
`loadConfig`. -/
def handler {σ : Type} (d : SqlDriver σ) (env : String → Option String) (s3Event : S3Event) :
    HandlerResult σ :=
  let t0 : List Event :=
    [⟨none, .log ("INFO: Received '" ++ fmtNat s3Event.records.length ++ "' events.")⟩]
  let config := loadConfig env
  let dbConStr := config.GetString "database_connection_string"
  match openDbConnection d dbConStr with
  | .error msg => { outcome := .panicked msg, trace := t0 ++ [⟨none, .log msg⟩], db := none }
  | .ok db =>
    let expectedBucket := config.GetString "file_uploads_bucket_name"
    match processRecords d expectedBucket 0 s3Event.records ⟨db, t0⟩ with
    | .error (w, msg) => runDeferredClose d w (.panicked msg)
    | .ok w => runDeferredClose d w (.returned none)

/-- The `db.Exec` calls of a trace made in iteration `i`, in order. -/
def execsAt (t : List Event) (i : Nat) : List (String × List String) :=
  t.filterMap fun e =>
    match e.eff with
    | .exec q args => if e.iter = some i then some (q, args) else none
    | .log _ => none

/-- The lines of a trace logged in iteration `i`, in order. -/
def linesAt (t : List Event) (i : Nat) : List String :=
  t.filterMap fun e =>
    match e.eff with
    | .log line => if e.iter = some i then some line else none
    | .exec _ _ => none

/-- The `db.Exec` calls one iteration makes for `record`: none for a record
`sanityCheck` rejects, the update with the key tokens as arguments otherwise. -/
def recordExecs (expectedBucket : String) (record : S3EventRecord) :
    List (String × List String) :=
  match sanityCheck record.bucketName expectedBucket record.eventName
      (stringsSplit record.objectKey '/') with
  | some _ => []
  | none => [(updateStatement, stringsSplit record.objectKey '/')]

/-- The line `handler` logs for what `updateStatus` returned: the error text,
or the success line. -/
def updateLine (r : Int × Int × Option String) : String :=
  match r with
  | (_, _, some err) => err
  | (rowsAffected, lastUpdateId, none) => updateDoneLine lastUpdateId rowsAffected

/-! ## The metadata store -/

/-- One row of the table `UploadRequests`, with the three columns the
statement names. -/
structure UploadRequest where
  user_id : String
  object_key : String
  status_id : Int
  deriving DecidableEq, Repr

/-- The table `UploadRequests`. -/
abbrev Store := List UploadRequest

/-- Modelled from the spec: the effect of the update statement on the table,
which lives in the external metadata store and is not part of the sources.
Every row keyed by `(userId, objectKey)` gets `status_id := 2`; no other row
and no other column is touched. -/
def Store.setUploaded (s : Store) (userId objectKey : String) : Store :=
  s.map fun row =>
    if row.user_id = userId ∧ row.object_key = objectKey then { row with status_id := 2 }
    else row

/-- Modelled from the spec: the number of rows the update statement changes
(rows with the key whose `status_id` was not yet 2), reported by the external
store as `rows_affected`. -/
def Store.changed (s : Store) (userId objectKey : String) : Nat :=
  (s.filter fun row =>
    row.user_id = userId ∧ row.object_key = objectKey ∧ row.status_id ≠ 2).length

/-- Modelled from the spec: `db.Exec` of a reachable metadata store whose
statements succeed. The store itself is external to the sources; it executes
the update statement with its two bound parameters and reports the changed
rows and the id 0. -/
def storeExec (s : Store) (query : String) (args : List String) :
    Store × Except String SqlResult :=
  if query = updateStatement then
    match args with
    | [userId, objectKey] =>
      (s.setUploaded userId objectKey,
        .ok { rowsAffected := .ok (s.changed userId objectKey), lastInsertId := .ok 0 })
    | _ => (s, .error "sql: wrong number of arguments")
  else
    (s, .error "unknown statement")

/-- Modelled from the spec: a driver connected to the store `s`; opening and
closing succeed. -/
def storeDriver (s : Store) : SqlDriver Store :=
  { sqlOpen := fun _ _ => .ok s
    exec := storeExec
    close := fun s1 => (s1, none) }

/-- A driver as `database/sql` behaves for a well-formed connection string
whose host cannot be reached: `sql.Open` only validates its arguments and
returns a handle, every statement fails when it tries to connect, `Close` on
the handle without connections succeeds. -/
def unreachableDriver : SqlDriver Unit :=
  { sqlOpen := fun _ _ => .ok ()
    exec := fun _ _ _ => ((), .error "dial tcp 10.255.255.1:3306: i/o timeout")
    close := fun _ => ((), none) }

/-- A driver over the store `s` whose `Close` reports an error. -/
def closeFailingDriver (s : Store) : SqlDriver Store :=
  { sqlOpen := fun _ _ => .ok s
    exec := storeExec
    close := fun s1 => (s1, some "invalid connection") }

/-- A driver over the store `s` whose `sql.Open` checks the shape of the
connection string as the MySQL driver does: a non-empty string without a `/`
is rejected. -/
def parsingDriver (s : Store) : SqlDriver Store :=
  { sqlOpen := fun _ dsn =>
      if dsn ≠ "" ∧ '/' ∉ dsn.data then
        .error "invalid DSN: missing the slash separating the database name"
      else .ok s
    exec := storeExec
    close := fun s1 => (s1, none) }

/-- A driver whose statement succeeds but whose result reports neither count. -/
def silentDriver : SqlDriver Unit :=
  { sqlOpen := fun _ _ => .ok ()
    exec := fun _ _ _ =>
      ((), .ok { rowsAffected := .error "no RowsAffected available",
                 lastInsertId := .error "no LastInsertId available" })
    close := fun _ => ((), none) }

/-- An environment that names the bucket `uploads` and a connection string. -/
def sampleEnv : String → Option String := fun name =>
  if name = "FA_FILE_UPLOADS_BUCKET_NAME" then some "uploads"
  else if name = "FA_DATABASE_CONNECTION_STRING" then some "user:pw@tcp(10.255.255.1:3306)/fa"
  else none

/-- An environment that names the bucket `uploads` and a connection string
without a `/`. -/
def malformedDsnEnv : String → Option String := fun name =>
  if name = "FA_FILE_UPLOADS_BUCKET_NAME" then some "uploads"
  else if name = "FA_DATABASE_CONNECTION_STRING" then some "fa-metadata"
  else none

/-- The event of the happy-path scenario. -/
def sampleRecord : S3EventRecord :=
  { eventName := "ObjectCreated:Put", bucketName := "uploads", objectKey := "alice/report.pdf" }

/-- The mixed batch of the scenarios: a foreign bucket, a malformed key, a
valid record. -/
def mixedBatch : S3Event :=
  { records :=
      [ { eventName := "ObjectCreated:Put", bucketName := "other", objectKey := "bob/x.png" },
        { eventName := "ObjectCreated:Put", bucketName := "uploads",
          objectKey := "alice/photos/img.jpg" },
        sampleRecord ] }

/-- A table with one pending request of `alice`. -/
def sampleStore : Store :=
  [ { user_id := "alice", object_key := "report.pdf", status_id := 1 },
    { user_id := "bob", object_key := "report.pdf", status_id := 1 } ]

/-! ## The configuration -/

/-- The two option names the handler asks for are ASCII, so the variable names
`loadConfig` builds for them are the ones viper builds. -/
theorem loadConfig_names (env : String → Option String) :
    (loadConfig env).GetString "database_connection_string" =
      (env "FA_DATABASE_CONNECTION_STRING").getD "" ∧
    (loadConfig env).GetString "file_uploads_bucket_name" =
      (env "FA_FILE_UPLOADS_BUCKET_NAME").getD "" := by
  constructor <;> rfl

/-! ## Splitting the object key -/

theorem splitChars_ne_nil (sep : Char) (l : List Char) : splitChars sep l ≠ [] := by
  cases l with
  | nil => simp [splitChars]
  | cons c cs =>
    unfold splitChars
    split_ifs
    · simp
    · split <;> simp

theorem splitChars_length (sep : Char) (l : List Char) :
    (splitChars sep l).length = l.count sep + 1 := by
  induction l with
  | nil => simp [splitChars]
  | cons c cs ih =>
    unfold splitChars
    by_cases h : c = sep
    · subst h
      simp [ih]
    · have hne : (c == sep) = false := by simpa using h
      simp only [h, if_false, List.count_cons, hne]
      split
      · next hnil => exact absurd hnil (splitChars_ne_nil sep cs)
      · next t ts hcons =>
        rw [hcons] at ih
        simpa using ih

theorem splitChars_no_sep (sep : Char) (l : List Char) :
    ∀ t ∈ splitChars sep l, sep ∉ t := by
  induction l with
  | nil => simp [splitChars]
  | cons c cs ih =>
    unfold splitChars
    by_cases h : c = sep
    · subst h
      intro t ht
      simp only [if_true, List.mem_cons] at ht
      rcases ht with rfl | ht
      · simp
      · exact ih t ht
    · simp only [h, if_false]
      split
      · next hnil => exact absurd hnil (splitChars_ne_nil sep cs)
      · next t ts hcons =>
        rw [hcons] at ih
        intro u hu
        simp only [List.mem_cons] at hu
        rcases hu with rfl | hu
        · have := ih t (by simp)
          simp only [List.mem_cons, not_or]
          exact ⟨fun e => h e.symm, this⟩
        · exact ih u (by simp [hu])

theorem splitChars_single (sep : Char) (l b : List Char) (h : splitChars sep l = [b]) :
    l = b := by
  induction l generalizing b with
  | nil => simpa [splitChars] using h
  | cons c cs ih =>
    unfold splitChars at h
    by_cases hc : c = sep
    · simp only [hc, if_true] at h
      have h2 : splitChars sep cs = [] := by
        have := (List.cons.inj h).2
        exact this
      exact absurd h2 (splitChars_ne_nil sep cs)
    · simp only [hc, if_false] at h
      split at h
      · next hnil => exact absurd hnil (splitChars_ne_nil sep cs)
      · next t ts hcons =>
        obtain ⟨h1, h2⟩ := List.cons.inj h
        subst h2
        rw [ih t hcons, h1]

theorem splitChars_pair (sep : Char) (l a b : List Char) (h : splitChars sep l = [a, b]) :
    l = a ++ sep :: b := by
  induction l generalizing a with
  | nil => simp [splitChars] at h
  | cons c cs ih =>
    unfold splitChars at h
    by_cases hc : c = sep
    · simp only [hc, if_true] at h
      obtain ⟨h1, h2⟩ := List.cons.inj h
      rw [← h1, splitChars_single sep cs b h2, hc]
      rfl
    · simp only [hc, if_false] at h
      split at h
      · next hnil => exact absurd hnil (splitChars_ne_nil sep cs)
      · next t ts hcons =>
        obtain ⟨h1, h2⟩ := List.cons.inj h
        subst h2
        rw [ih t hcons, ← h1]
        rfl

theorem stringsSplit_length (key : String) :
    (stringsSplit key '/').length = key.data.count '/' + 1 := by
  simp [stringsSplit, splitChars_length]

theorem stringsSplit_pair (key t0 t1 : String) (h : stringsSplit key '/' = [t0, t1]) :
    t0 ++ "/" ++ t1 = key ∧ '/' ∉ t0.data ∧ '/' ∉ t1.data := by
  unfold stringsSplit at h
  match hs : splitChars '/' key.data, h with
  | [a, b], h =>
    simp only [List.map_cons, List.map_nil] at h
    obtain ⟨h0, h1⟩ := List.cons.inj h
    have h1 := (List.cons.inj h1).1
    subst h0 h1
    have hk := splitChars_pair '/' key.data a b hs
    have hmem := splitChars_no_sep '/' key.data
    rw [hs] at hmem
    refine ⟨?_, hmem a (by simp), hmem b (by simp)⟩
    apply String.ext
    simp [String.data_append, hk]

theorem stringsSplit_two (key : String) (h : (stringsSplit key '/').length = 2) :
    ∃ t0 t1, stringsSplit key '/' = [t0, t1] := by
  match hs : stringsSplit key '/', h with
  | [a, b], _ => exact ⟨a, b, rfl⟩

/-! ## The record validator -/

theorem sanityCheck_eq_none_iff (bucket expectedBucket eventName : String)
    (tokens : List String) :
    sanityCheck bucket expectedBucket eventName tokens = none ↔
      (bucket = expectedBucket ∧ eventName = "ObjectCreated:Put" ∧ tokens.length = 2) := by
  unfold sanityCheck
  split_ifs with h1 h2 h3 <;> simp_all [expectedEventName]

theorem sanityCheck_malformed (bucket : String) (tokens : List String)
    (h : tokens.length ≠ 2) :
    sanityCheck bucket bucket "ObjectCreated:Put" tokens =
      some ("ERROR: Object key has more parts. Expected: 2, Actual: " ++ fmtNat tokens.length
        ++ ", " ++ fmtStrings tokens) := by
  simp [sanityCheck, expectedEventName, h]

/-- C1. `sanityCheck` returns `nil` exactly when the bucket is the expected
one, the event name is `ObjectCreated:Put` and there are two tokens; on every
other input it returns an error. -/
theorem sanityCheck_nil_iff (bucket expectedBucket eventName : String) (tokens : List String) :
    (sanityCheck bucket expectedBucket eventName tokens = none ↔
      (bucket = expectedBucket ∧ eventName = "ObjectCreated:Put" ∧ tokens.length = 2)) ∧
    ((sanityCheck bucket expectedBucket eventName tokens).isSome = true ↔
      ¬ (bucket = expectedBucket ∧ eventName = "ObjectCreated:Put" ∧ tokens.length = 2)) := by
  unfold sanityCheck
  split_ifs with h1 h2 h3 <;> simp_all [expectedEventName]

/-- C2. The checks of `sanityCheck` run in the order bucket, event name, key
shape and the first that fails fixes the message: a foreign bucket gives the
bucket message whatever the rest is, a foreign event name in the expected bucket
gives the event-name message whatever the tokens are, and a token count other
than two gives the malformed-key message once bucket and event name match. -/
theorem sanityCheck_first_failure (bucket expectedBucket eventName : String)
    (tokens : List String) :
    (bucket ≠ expectedBucket →
      sanityCheck bucket expectedBucket eventName tokens =
        some ("WARN: Skipped event because of bucket missmatch. Expected: '" ++ expectedBucket
          ++ "', Actual: '" ++ bucket ++ "'")) ∧
    (bucket = expectedBucket → eventName ≠ "ObjectCreated:Put" →
      sanityCheck bucket expectedBucket eventName tokens =
        some ("WARN: Skipped event because of eventName missmatch. Expected: '"
          ++ "ObjectCreated:Put" ++ "', Actual: '" ++ eventName ++ "'")) ∧
    (bucket = expectedBucket → eventName = "ObjectCreated:Put" → tokens.length ≠ 2 →
      sanityCheck bucket expectedBucket eventName tokens =
        some ("ERROR: Object key has more parts. Expected: 2, Actual: " ++ fmtNat tokens.length
          ++ ", " ++ fmtStrings tokens)) := by
  unfold sanityCheck
  refine ⟨?_, ?_, ?_⟩
  · intro h
    simp [h]
  · intro h1 h2
    simp [h1, h2, expectedEventName]
  · intro h1 h2 h3
    simp [h1, h2, h3, expectedEventName]

/-- C9. Splitting a key at `/` gives two tokens exactly when the key has one
`/`; then the tokens joined by `/` are the key and neither holds a `/`. A record
of the expected bucket and event name is therefore accepted exactly when its key
has one `/` (an empty side included) and gets the malformed-key error otherwise. -/
theorem key_shape (key : String) :
    ((stringsSplit key '/').length = 2 ↔ key.data.count '/' = 1) ∧
    (key.data.count '/' = 1 →
      ∃ t0 t1, stringsSplit key '/' = [t0, t1] ∧ t0 ++ "/" ++ t1 = key ∧
        '/' ∉ t0.data ∧ '/' ∉ t1.data) ∧
    (∀ bucket : String,
      (sanityCheck bucket bucket "ObjectCreated:Put" (stringsSplit key '/') = none ↔
        key.data.count '/' = 1) ∧
      (key.data.count '/' ≠ 1 →
        sanityCheck bucket bucket "ObjectCreated:Put" (stringsSplit key '/') =
          some ("ERROR: Object key has more parts. Expected: 2, Actual: "
            ++ fmtNat (stringsSplit key '/').length ++ ", "
            ++ fmtStrings (stringsSplit key '/')))) ∧
    sanityCheck "uploads" "uploads" "ObjectCreated:Put" (stringsSplit "/k" '/') = none ∧
    sanityCheck "uploads" "uploads" "ObjectCreated:Put" (stringsSplit "u/" '/') = none ∧
    sanityCheck "uploads" "uploads" "ObjectCreated:Put" (stringsSplit "/" '/') = none ∧
    (sanityCheck "uploads" "uploads" "ObjectCreated:Put" (stringsSplit "" '/')).isSome = true ∧
    (sanityCheck "uploads" "uploads" "ObjectCreated:Put" (stringsSplit "u" '/')).isSome = true ∧
    (sanityCheck "uploads" "uploads" "ObjectCreated:Put"
      (stringsSplit "u/a/b" '/')).isSome = true := by
  have hlen : (stringsSplit key '/').length = 2 ↔ key.data.count '/' = 1 := by
    rw [stringsSplit_length]
    omega
  refine ⟨hlen, ?_, ?_, by decide, by decide, by decide, by decide, by decide, by decide⟩
  · intro h
    obtain ⟨t0, t1, ht⟩ := stringsSplit_two key (hlen.mpr h)
    exact ⟨t0, t1, ht, stringsSplit_pair key t0 t1 ht⟩
  · intro bucket
    refine ⟨?_, ?_⟩
    · rw [sanityCheck_eq_none_iff bucket bucket "ObjectCreated:Put" _, ← hlen]
      simp
    · intro h
      exact sanityCheck_malformed bucket _ (fun h2 => h (hlen.mp h2))

/-! ## The status updater -/

theorem updateStatus_db {σ : Type} (d : SqlDriver σ) (db : σ) (userId objectKey : String) :
    (updateStatus d db userId objectKey).1 = (d.exec db updateStatement [userId, objectKey]).1 := by
  unfold updateStatus
  split
  · next h => simp [h]
  · next res h =>
    split
    · simp [h]
    · split <;> simp [h]

/-- Through the recording handle `updateStatus` returns what it returns
through the driver itself, and the trace grows by the one `db.Exec` call it
makes. -/
theorem updateStatus_traced {σ : Type} (d : SqlDriver σ) (i : Nat) (w : World σ)
    (userId objectKey : String) :
    updateStatus (traced d i) w userId objectKey =
      (⟨(updateStatus d w.db userId objectKey).1,
          w.trace ++ [⟨some i, .exec updateStatement [userId, objectKey]⟩]⟩,
        (updateStatus d w.db userId objectKey).2) := by
  unfold updateStatus
  simp only [traced]
  rcases d.exec w.db updateStatement [userId, objectKey] with ⟨db1, e | ⟨ra, li⟩⟩
  · rfl
  · rcases ra with e1 | n <;> rcases li with e2 | m <;> rfl

/-! ## One iteration of the loop -/

theorem execsAt_append (a b : List Event) (i : Nat) :
    execsAt (a ++ b) i = execsAt a i ++ execsAt b i := by
  simp [execsAt, List.filterMap_append]

theorem linesAt_append (a b : List Event) (i : Nat) :
    linesAt (a ++ b) i = linesAt a i ++ linesAt b i := by
  simp [linesAt, List.filterMap_append]

theorem execsAt_other (t : List Event) (j : Nat) (h : ∀ e ∈ t, e.iter ≠ some j) :
    execsAt t j = [] := by
  induction t with
  | nil => rfl
  | cons e es ih =>
    have he := h e (by simp)
    have hes := ih (fun x hx => h x (by simp [hx]))
    have : execsAt (e :: es) j = execsAt [e] j ++ execsAt es j := execsAt_append [e] es j
    rw [this, hes]
    cases hq : e.eff <;> simp [execsAt, hq, he]

theorem linesAt_other (t : List Event) (j : Nat) (h : ∀ e ∈ t, e.iter ≠ some j) :
    linesAt t j = [] := by
  induction t with
  | nil => rfl
  | cons e es ih =>
    have he := h e (by simp)
    have hes := ih (fun x hx => h x (by simp [hx]))
    have : linesAt (e :: es) j = linesAt [e] j ++ linesAt es j := linesAt_append [e] es j
    rw [this, hes]
    cases hq : e.eff <;> simp [linesAt, hq, he]

theorem handlerBody_rejected {σ : Type} (d : SqlDriver σ) (expectedBucket : String) (i : Nat)
    (w : World σ) (record : S3EventRecord) (err : String)
    (h : sanityCheck record.bucketName expectedBucket record.eventName
      (stringsSplit record.objectKey '/') = some err) :
    handlerBody d expectedBucket i w record =
      .ok ⟨w.db, w.trace ++ [⟨some i, .log (receivedLine record.eventName record.bucketName
        record.objectKey)⟩, ⟨some i, .log err⟩]⟩ := by
  simp [handlerBody, h]

theorem accepted_tokens (expectedBucket : String) (record : S3EventRecord)
    (h : sanityCheck record.bucketName expectedBucket record.eventName
      (stringsSplit record.objectKey '/') = none) :
    ∃ t0 t1, stringsSplit record.objectKey '/' = [t0, t1] :=
  stringsSplit_two _ ((sanityCheck_eq_none_iff _ _ _ _).mp h).2.2

theorem handlerBody_accepted {σ : Type} (d : SqlDriver σ) (expectedBucket : String) (i : Nat)
    (w : World σ) (record : S3EventRecord) (t0 t1 : String)
    (h : sanityCheck record.bucketName expectedBucket record.eventName
      (stringsSplit record.objectKey '/') = none)
    (ht : stringsSplit record.objectKey '/' = [t0, t1]) :
    handlerBody d expectedBucket i w record =
      .ok ⟨(updateStatus d w.db t0 t1).1, w.trace ++
        [⟨some i, .log (receivedLine record.eventName record.bucketName record.objectKey)⟩,
         ⟨some i, .exec updateStatement [t0, t1]⟩,
         ⟨some i, .log (updateLine (updateStatus d w.db t0 t1).2)⟩]⟩ := by
  have h2 : sanityCheck record.bucketName expectedBucket record.eventName [t0, t1] = none := by
    rw [← ht]; exact h
  simp only [handlerBody, ht, h2, List.get?_cons_zero, List.get?_cons_succ,
    updateStatus_traced]
  rcases hu : updateStatus d w.db t0 t1 with ⟨db1, ra, li, _ | e⟩ <;> simp [updateLine]

/-- Summary of one iteration: it never panics, adds only events of its own
iteration, makes the `db.Exec` calls `recordExecs` lists, and logs the
received line followed by one more line (the rejection when there is one). -/
theorem handlerBody_spec {σ : Type} (d : SqlDriver σ) (expectedBucket : String) (i : Nat)
    (w : World σ) (record : S3EventRecord) :
    ∃ db1 evs, handlerBody d expectedBucket i w record = .ok ⟨db1, w.trace ++ evs⟩ ∧
      (∀ e ∈ evs, e.iter = some i) ∧
      execsAt evs i = recordExecs expectedBucket record ∧
      ∃ l, linesAt evs i =
          [receivedLine record.eventName record.bucketName record.objectKey, l] ∧
        ∀ err, sanityCheck record.bucketName expectedBucket record.eventName
          (stringsSplit record.objectKey '/') = some err → l = err := by
  cases h : sanityCheck record.bucketName expectedBucket record.eventName
      (stringsSplit record.objectKey '/') with
  | some err =>
    refine ⟨w.db, _, handlerBody_rejected d expectedBucket i w record err h, ?_, ?_, err, ?_, ?_⟩
    · simp
    · simp [execsAt, recordExecs, h]
    · simp [linesAt]
    · simp
  | none =>
    obtain ⟨t0, t1, ht⟩ := accepted_tokens expectedBucket record h
    refine ⟨_, _, handlerBody_accepted d expectedBucket i w record t0 t1 h ht, ?_, ?_,
      updateLine (updateStatus d w.db t0 t1).2, ?_, ?_⟩
    · simp
    · simp only [recordExecs, h]
      simp [execsAt, ht]
    · simp [linesAt]
    · simp

/-! ## The loop -/

/-- The loop never panics; every event it adds belongs to one of its
iterations, and iteration `i + n` does for the `n`-th record what
`handlerBody_spec` says. -/
theorem processRecords_spec {σ : Type} (d : SqlDriver σ) (expectedBucket : String)
    (rs : List S3EventRecord) :
    ∀ (i : Nat) (w : World σ), ∃ db1 evs,
      processRecords d expectedBucket i rs w = .ok ⟨db1, w.trace ++ evs⟩ ∧
      (∀ e ∈ evs, ∃ n, n < rs.length ∧ e.iter = some (i + n)) ∧
      ∀ n record, rs[n]? = some record →
        execsAt evs (i + n) = recordExecs expectedBucket record ∧
        ∃ l, linesAt evs (i + n) =
            [receivedLine record.eventName record.bucketName record.objectKey, l] ∧
          ∀ err, sanityCheck record.bucketName expectedBucket record.eventName
            (stringsSplit record.objectKey '/') = some err → l = err := by
  induction rs with
  | nil =>
    intro i w
    exact ⟨w.db, [], by simp [processRecords], by simp, by simp⟩
  | cons r rest ih =>
    intro i w
    obtain ⟨db0, evs0, hb, htag0, hex0, l0, hl0, hrej0⟩ := handlerBody_spec d expectedBucket i w r
    obtain ⟨db1, evs1, hp, htag1, hrest⟩ := ih (i + 1) ⟨db0, w.trace ++ evs0⟩
    refine ⟨db1, evs0 ++ evs1, ?_, ?_, ?_⟩
    · simp only [processRecords, hb, hp, List.append_assoc]
    · intro e he
      rcases List.mem_append.mp he with h0 | h1
      · exact ⟨0, by simp, by simpa using htag0 e h0⟩
      · obtain ⟨n, hn, hiter⟩ := htag1 e h1
        exact ⟨n + 1, by simpa using hn, by rw [hiter]; congr 1; omega⟩
    · intro n record hrec
      cases n with
      | zero =>
        have hr : r = record := by simpa using hrec
        subst hr
        have hno : ∀ e ∈ evs1, e.iter ≠ some (i + 0) := by
          intro e he
          obtain ⟨n, _, hiter⟩ := htag1 e he
          rw [hiter]
          simp only [ne_eq, Option.some.injEq]
          omega
        rw [execsAt_append, linesAt_append, execsAt_other evs1 _ hno, linesAt_other evs1 _ hno]
        simp only [List.append_nil, Nat.add_zero]
        exact ⟨hex0, l0, hl0, hrej0⟩
      | succ m =>
        have hrec1 : rest[m]? = some record := by simpa using hrec
        have hno : ∀ e ∈ evs0, e.iter ≠ some (i + (m + 1)) := by
          intro e he
          rw [htag0 e he]
          simp
        rw [execsAt_append, linesAt_append, execsAt_other evs0 _ hno, linesAt_other evs0 _ hno]
        have := hrest m record hrec1
        have e1 : i + 1 + m = i + (m + 1) := by omega
        rw [e1] at this
        simpa using this

/-! ## The handler -/

theorem execsAt_runDeferredClose {σ : Type} (d : SqlDriver σ) (w : World σ) (o : Outcome)
    (j : Nat) : execsAt (runDeferredClose d w o).trace j = execsAt w.trace j := by
  unfold runDeferredClose
  split <;> simp [execsAt_append, execsAt]

theorem linesAt_runDeferredClose {σ : Type} (d : SqlDriver σ) (w : World σ) (o : Outcome)
    (j : Nat) : linesAt (runDeferredClose d w o).trace j = linesAt w.trace j := by
  unfold runDeferredClose
  split <;> simp [linesAt_append, linesAt]

/-- With a handle, the invocation runs the whole loop and then the deferred
close; what iteration `n` did is what `processRecords_spec` says. -/
theorem handler_opened {σ : Type} (d : SqlDriver σ) (env : String → Option String)
    (s3Event : S3Event) (db : σ)
    (hopen : d.sqlOpen "mysql" ((loadConfig env).GetString "database_connection_string")
      = .ok db) :
    ∃ w : World σ,
      processRecords d ((loadConfig env).GetString "file_uploads_bucket_name") 0
        s3Event.records
        ⟨db, [⟨none, .log ("INFO: Received '" ++ fmtNat s3Event.records.length
          ++ "' events.")⟩]⟩ = .ok w ∧
      handler d env s3Event = runDeferredClose d w (.returned none) ∧
      ∀ n record, s3Event.records[n]? = some record →
        execsAt w.trace n =
          recordExecs ((loadConfig env).GetString "file_uploads_bucket_name") record ∧
        ∃ l, linesAt w.trace n =
            [receivedLine record.eventName record.bucketName record.objectKey, l] ∧
          ∀ err, sanityCheck record.bucketName
            ((loadConfig env).GetString "file_uploads_bucket_name") record.eventName
            (stringsSplit record.objectKey '/') = some err → l = err := by
  obtain ⟨db1, evs, hp, _, hrest⟩ :=
    processRecords_spec d ((loadConfig env).GetString "file_uploads_bucket_name")
      s3Event.records 0
      ⟨db, [⟨none, .log ("INFO: Received '" ++ fmtNat s3Event.records.length ++ "' events.")⟩]⟩
  refine ⟨⟨db1, [⟨none, .log ("INFO: Received '" ++ fmtNat s3Event.records.length
    ++ "' events.")⟩] ++ evs⟩, hp, ?_, ?_⟩
  · simp only [handler, openDbConnection, hopen, hp]
  · intro n record hrec
    have := hrest n record hrec
    simp only [Nat.zero_add] at this
    simpa [execsAt_append, linesAt_append, execsAt, linesAt] using this

/-- Without a handle the invocation panics before the loop and makes no
`db.Exec` call at all. -/
theorem handler_not_opened {σ : Type} (d : SqlDriver σ) (env : String → Option String)
    (s3Event : S3Event) (err : String)
    (hopen : d.sqlOpen "mysql" ((loadConfig env).GetString "database_connection_string")
      = .error err) :
    (handler d env s3Event).outcome = .panicked ("Can't connect to a database!" ++ err) ∧
    (handler d env s3Event).db = none ∧
    ∀ n, execsAt (handler d env s3Event).trace n = [] ∧
      linesAt (handler d env s3Event).trace n = [] := by
  simp [handler, openDbConnection, hopen, execsAt, linesAt]

/-- What iteration `n` of an invocation that got its handle does for the
`n`-th record. -/
theorem handler_iteration {σ : Type} (d : SqlDriver σ) (env : String → Option String)
    (s3Event : S3Event) (db : σ) (n : Nat) (record : S3EventRecord)
    (hopen : d.sqlOpen "mysql" ((loadConfig env).GetString "database_connection_string")
      = .ok db)
    (hrec : s3Event.records[n]? = some record) :
    execsAt (handler d env s3Event).trace n =
      recordExecs ((loadConfig env).GetString "file_uploads_bucket_name") record ∧
    ∃ l, linesAt (handler d env s3Event).trace n =
        [receivedLine record.eventName record.bucketName record.objectKey, l] ∧
      ∀ err, sanityCheck record.bucketName
        ((loadConfig env).GetString "file_uploads_bucket_name") record.eventName
        (stringsSplit record.objectKey '/') = some err → l = err := by
  obtain ⟨w, _, hw, hrest⟩ := handler_opened d env s3Event db hopen
  rw [hw, execsAt_runDeferredClose, linesAt_runDeferredClose]
  exact hrest n record hrec

/-- An invocation that got its handle runs the loop to its end, and its
outcome is decided by the deferred close alone. -/
theorem handler_outcome {σ : Type} (d : SqlDriver σ) (env : String → Option String)
    (s3Event : S3Event) (db : σ)
    (hopen : d.sqlOpen "mysql" ((loadConfig env).GetString "database_connection_string")
      = .ok db) :
    ∃ w : World σ,
      processRecords d ((loadConfig env).GetString "file_uploads_bucket_name") 0
        s3Event.records
        ⟨db, [⟨none, .log ("INFO: Received '" ++ fmtNat s3Event.records.length
          ++ "' events.")⟩]⟩ = .ok w ∧
      ((d.close w.db).2 = none → (handler d env s3Event).outcome = .returned none) ∧
      ∀ err, (d.close w.db).2 = some err →
        (handler d env s3Event).outcome =
          .panicked ("Can't close a connection to a database!" ++ err) := by
  obtain ⟨w, hp, hw, _⟩ := handler_opened d env s3Event db hopen
  refine ⟨w, hp, ?_, ?_⟩
  · intro hc
    rw [hw]
    unfold runDeferredClose closeDbConnection
    rcases hd : d.close w.db with ⟨db2, _ | e⟩
    · rfl
    · rw [hd] at hc
      simp at hc
  · intro err hc
    rw [hw]
    unfold runDeferredClose closeDbConnection
    rcases hd : d.close w.db with ⟨db2, _ | e⟩
    · rw [hd] at hc
      simp at hc
    · rw [hd] at hc
      simp only [Option.some.injEq] at hc
      subst hc
      rfl

/-- The iteration of an accepted record hands the update statement with the
two key tokens to the driver: the database after the iteration is the one the
driver returns for exactly this call. -/
theorem handlerBody_accepted_db {σ : Type} (d : SqlDriver σ) (expectedBucket : String)
    (i : Nat) (w : World σ) (record : S3EventRecord) (t0 t1 : String)
    (h : sanityCheck record.bucketName expectedBucket record.eventName
      (stringsSplit record.objectKey '/') = none)
    (ht : stringsSplit record.objectKey '/' = [t0, t1]) :
    ∃ w1, handlerBody d expectedBucket i w record = .ok w1 ∧
      w1.db = (d.exec w.db updateStatement [t0, t1]).1 :=
  ⟨_, handlerBody_accepted d expectedBucket i w record t0 t1 h ht,
    updateStatus_db d w.db t0 t1⟩

theorem recordExecs_rejected (expectedBucket : String) (record : S3EventRecord)
    (h : record.bucketName ≠ expectedBucket ∨ record.eventName ≠ "ObjectCreated:Put" ∨
      (stringsSplit record.objectKey '/').length ≠ 2) :
    recordExecs expectedBucket record = [] := by
  have hne : sanityCheck record.bucketName expectedBucket record.eventName
      (stringsSplit record.objectKey '/') ≠ none := by
    rw [Ne, sanityCheck_eq_none_iff _ _ _ _]
    tauto
  unfold recordExecs
  split
  · rfl
  · next hnone => exact absurd hnone hne

/-- C3. For every batch and every record of it with a foreign bucket, a
foreign event name, or a key that does not split at `/` into exactly two
parts, the handler makes no `db.Exec` call in that record's iteration. -/
theorem handler_rejected_no_exec {σ : Type} (d : SqlDriver σ) (env : String → Option String)
    (s3Event : S3Event) (n : Nat) (record : S3EventRecord)
    (hrec : s3Event.records[n]? = some record)
    (hrej : record.bucketName ≠ (loadConfig env).GetString "file_uploads_bucket_name" ∨
      record.eventName ≠ "ObjectCreated:Put" ∨
      (stringsSplit record.objectKey '/').length ≠ 2) :
    execsAt (handler d env s3Event).trace n = [] := by
  cases hopen : d.sqlOpen "mysql" ((loadConfig env).GetString "database_connection_string") with
  | error err => exact ((handler_not_opened d env s3Event err hopen).2.2 n).1
  | ok db =>
    rw [(handler_iteration d env s3Event db n record hopen hrec).1]
    exact recordExecs_rejected _ record hrej

/-- C4, as stated, fails: with a connection string that `sql.Open` rejects
`openDbConnection` panics before the loop, so for the third record of the mixed
batch, which `sanityCheck` accepts, no statement at all is executed. -/
theorem handler_open_error_no_update :
    mixedBatch.records[2]? = some sampleRecord ∧
    sanityCheck sampleRecord.bucketName
      ((loadConfig malformedDsnEnv).GetString "file_uploads_bucket_name")
      sampleRecord.eventName (stringsSplit sampleRecord.objectKey '/') = none ∧
    execsAt (handler (parsingDriver sampleStore) malformedDsnEnv mixedBatch).trace 2 = [] ∧
    (handler (parsingDriver sampleStore) malformedDsnEnv mixedBatch).outcome =
      .panicked ("Can't connect to a database!"
        ++ "invalid DSN: missing the slash separating the database name") ∧
    (handler (parsingDriver sampleStore) malformedDsnEnv mixedBatch).db = none := by
  decide

/-- C4, amended. In an invocation in which `sql.Open` returned a handle, for
every batch and every record of it that `sanityCheck` accepts, the handler
makes exactly one `db.Exec` call in that record's iteration: the statement that
sets `status_id = 2`, with the arguments `tokens[0]` and `tokens[1]` of the key
split at `/`; both indices are in range. The call is the one the driver
receives: the iteration ends, without a panic, in the database state the
driver returns for this statement and these arguments. -/
theorem handler_accepted_one_update {σ : Type} (d : SqlDriver σ)
    (env : String → Option String) (s3Event : S3Event) (db : σ) (n : Nat)
    (record : S3EventRecord)
    (hopen : d.sqlOpen "mysql" ((loadConfig env).GetString "database_connection_string")
      = .ok db)
    (hrec : s3Event.records[n]? = some record)
    (hacc : sanityCheck record.bucketName
      ((loadConfig env).GetString "file_uploads_bucket_name") record.eventName
      (stringsSplit record.objectKey '/') = none) :
    ∃ t0 t1, (stringsSplit record.objectKey '/')[0]? = some t0 ∧
      (stringsSplit record.objectKey '/')[1]? = some t1 ∧
      execsAt (handler d env s3Event).trace n =
        [("update UploadRequests set status_id = 2 where user_id = ? and object_key = ?",
          [t0, t1])] ∧
      ∀ (i : Nat) (w : World σ), ∃ w1,
        handlerBody d ((loadConfig env).GetString "file_uploads_bucket_name") i w record
          = .ok w1 ∧
        w1.db = (d.exec w.db
          "update UploadRequests set status_id = 2 where user_id = ? and object_key = ?"
          [t0, t1]).1 ∧
        execsAt w1.trace i = execsAt w.trace i ++
          [("update UploadRequests set status_id = 2 where user_id = ? and object_key = ?",
            [t0, t1])] := by
  obtain ⟨t0, t1, ht⟩ := accepted_tokens _ record hacc
  refine ⟨t0, t1, by simp [ht], by simp [ht], ?_, ?_⟩
  · rw [(handler_iteration d env s3Event db n record hopen hrec).1]
    simp only [recordExecs, hacc]
    rw [ht]
    rfl
  · intro i w
    refine ⟨_, handlerBody_accepted d _ i w record t0 t1 hacc ht, ?_, ?_⟩
    · exact updateStatus_db d w.db t0 t1
    · simp [execsAt_append, execsAt, updateStatement]

/-- Witness of C3 on the mixed batch: its first record has a foreign bucket. -/
theorem handler_rejected_no_exec_witness :
    mixedBatch.records[0]? =
      some { eventName := "ObjectCreated:Put", bucketName := "other", objectKey := "bob/x.png" } ∧
    "other" ≠ (loadConfig sampleEnv).GetString "file_uploads_bucket_name" ∧
    execsAt (handler (storeDriver sampleStore) sampleEnv mixedBatch).trace 0 = [] :=
  ⟨by decide, by decide,
    handler_rejected_no_exec (storeDriver sampleStore) sampleEnv mixedBatch 0
      { eventName := "ObjectCreated:Put", bucketName := "other", objectKey := "bob/x.png" }
      (by decide) (Or.inl (by decide))⟩

/-- Witness of C4 (amended) on the mixed batch: its third record is the valid
one, and the store driver opens. -/
theorem handler_accepted_one_update_witness :
    (storeDriver sampleStore).sqlOpen "mysql"
      ((loadConfig sampleEnv).GetString "database_connection_string") = .ok sampleStore ∧
    mixedBatch.records[2]? = some sampleRecord ∧
    ∃ t0 t1, (stringsSplit sampleRecord.objectKey '/')[0]? = some t0 ∧
      (stringsSplit sampleRecord.objectKey '/')[1]? = some t1 ∧
      execsAt (handler (storeDriver sampleStore) sampleEnv mixedBatch).trace 2 =
        [("update UploadRequests set status_id = 2 where user_id = ? and object_key = ?",
          [t0, t1])] ∧
      ∀ (i : Nat) (w : World Store), ∃ w1,
        handlerBody (storeDriver sampleStore)
          ((loadConfig sampleEnv).GetString "file_uploads_bucket_name") i w sampleRecord
          = .ok w1 ∧
        w1.db = ((storeDriver sampleStore).exec w.db
          "update UploadRequests set status_id = 2 where user_id = ? and object_key = ?"
          [t0, t1]).1 ∧
        execsAt w1.trace i = execsAt w.trace i ++
          [("update UploadRequests set status_id = 2 where user_id = ? and object_key = ?",
            [t0, t1])] :=
  ⟨rfl, by decide,
    handler_accepted_one_update (storeDriver sampleStore) sampleEnv mixedBatch sampleStore 2
      sampleRecord rfl (by decide) (by decide)⟩

/-- C5, as stated, fails: with a driver whose `Close` reports an error the
handler iterates the whole mixed batch (the third record is updated) and then
panics in the deferred close instead of returning `nil`. -/
theorem handler_close_error_panics :
    execsAt (handler (closeFailingDriver sampleStore) sampleEnv mixedBatch).trace 2 =
      [(updateStatement, ["alice", "report.pdf"])] ∧
    (handler (closeFailingDriver sampleStore) sampleEnv mixedBatch).outcome =
      .panicked "Can't close a connection to a database!invalid connection" ∧
    (handler (closeFailingDriver sampleStore) sampleEnv mixedBatch).outcome ≠
      .returned none := by
  decide

/-- C5, amended. For every batch and positions `i < j` in it, whatever
happened to record `i`, record `j` is processed as in the batch without record
`i`: its iteration makes the same `db.Exec` calls, logs the same first line and,
when `sanityCheck` rejects it, the same lines altogether. A batch is fully
iterated exactly when `sql.Open` returned a handle, for the loop itself never
fails; then every record is validated (its iteration logs the received line and
one more line, the rejection when there is one) and, if accepted, updated by
the one statement with its own key tokens, and the handler returns `nil`
provided that `db.Close` succeeds; when `db.Close` reports an error the handler
panics after the loop. -/
theorem handler_failure_isolated {σ : Type} (d : SqlDriver σ) (env : String → Option String)
    (s3Event : S3Event) :
    (∀ (i j : Nat) (record : S3EventRecord), i < j → s3Event.records[j]? = some record →
      execsAt (handler d env s3Event).trace j =
        execsAt (handler d env { records := s3Event.records.eraseIdx i }).trace (j - 1) ∧
      (linesAt (handler d env s3Event).trace j).head? =
        (linesAt (handler d env { records := s3Event.records.eraseIdx i }).trace
          (j - 1)).head? ∧
      ∀ err, sanityCheck record.bucketName
          ((loadConfig env).GetString "file_uploads_bucket_name")
          record.eventName (stringsSplit record.objectKey '/') = some err →
        linesAt (handler d env s3Event).trace j =
          linesAt (handler d env { records := s3Event.records.eraseIdx i }).trace (j - 1)) ∧
    (∀ db : σ,
      d.sqlOpen "mysql" ((loadConfig env).GetString "database_connection_string") = .ok db →
      (∀ (j : Nat) (record : S3EventRecord), s3Event.records[j]? = some record →
        (∃ l, linesAt (handler d env s3Event).trace j =
          [receivedLine record.eventName record.bucketName record.objectKey, l]) ∧
        (sanityCheck record.bucketName ((loadConfig env).GetString "file_uploads_bucket_name")
            record.eventName (stringsSplit record.objectKey '/') = none →
          execsAt (handler d env s3Event).trace j =
            [(updateStatement, stringsSplit record.objectKey '/')]) ∧
        (∀ err, sanityCheck record.bucketName
            ((loadConfig env).GetString "file_uploads_bucket_name")
            record.eventName (stringsSplit record.objectKey '/') = some err →
          execsAt (handler d env s3Event).trace j = [] ∧
          linesAt (handler d env s3Event).trace j =
            [receivedLine record.eventName record.bucketName record.objectKey, err])) ∧
      ∃ w : World σ,
        processRecords d ((loadConfig env).GetString "file_uploads_bucket_name") 0
          s3Event.records
          ⟨db, [⟨none, .log ("INFO: Received '" ++ fmtNat s3Event.records.length
            ++ "' events.")⟩]⟩ = .ok w ∧
        ((d.close w.db).2 = none → (handler d env s3Event).outcome = .returned none) ∧
        ∀ err, (d.close w.db).2 = some err →
          (handler d env s3Event).outcome =
            .panicked ("Can't close a connection to a database!" ++ err)) := by
  refine ⟨?_, ?_⟩
  · intro i j record hij hrec
    have hrec2 : (s3Event.records.eraseIdx i)[j - 1]? = some record := by
      rw [List.getElem?_eraseIdx_of_ge _ _ _ (by omega)]
      have : j - 1 + 1 = j := by omega
      rw [this]
      exact hrec
    cases hopen : d.sqlOpen "mysql"
        ((loadConfig env).GetString "database_connection_string") with
    | error e =>
      have h1 := (handler_not_opened d env s3Event e hopen).2.2 j
      have h2 := (handler_not_opened d env { records := s3Event.records.eraseIdx i } e
        hopen).2.2 (j - 1)
      rw [h1.1, h1.2, h2.1, h2.2]
      exact ⟨rfl, rfl, fun _ _ => rfl⟩
    | ok db =>
      obtain ⟨hex, l, hl, hrej⟩ := handler_iteration d env s3Event db j record hopen hrec
      obtain ⟨hex2, l2, hl2, hrej2⟩ := handler_iteration d env
        { records := s3Event.records.eraseIdx i } db (j - 1) record hopen hrec2
      refine ⟨by rw [hex, hex2], by rw [hl, hl2]; rfl, ?_⟩
      intro err herr
      rw [hl, hl2, hrej err herr, hrej2 err herr]
  · intro db hopen
    refine ⟨?_, handler_outcome d env s3Event db hopen⟩
    intro j record hrec
    obtain ⟨hex, l, hl, hrej⟩ := handler_iteration d env s3Event db j record hopen hrec
    refine ⟨⟨l, hl⟩, ?_, ?_⟩
    · intro hacc
      rw [hex]
      simp only [recordExecs, hacc]
    · intro err herr
      refine ⟨?_, ?_⟩
      · rw [hex]
        simp only [recordExecs, herr]
      · rw [hl, hrej err herr]

/-- Instance of C5 (amended) on the mixed batch: the first two records fail,
the third makes the calls it makes without the first, and the handler returns
`nil`. -/
theorem handler_failure_isolated_witness :
    mixedBatch.records[2]? = some sampleRecord ∧
    execsAt (handler (storeDriver sampleStore) sampleEnv mixedBatch).trace 2 =
      execsAt (handler (storeDriver sampleStore) sampleEnv
        { records := mixedBatch.records.eraseIdx 0 }).trace (2 - 1) ∧
    execsAt (handler (storeDriver sampleStore) sampleEnv mixedBatch).trace 2 =
      [(updateStatement, stringsSplit sampleRecord.objectKey '/')] ∧
    (handler (storeDriver sampleStore) sampleEnv mixedBatch).outcome = .returned none := by
  have h := handler_failure_isolated (storeDriver sampleStore) sampleEnv mixedBatch
  obtain ⟨hrecs, w, _, hnone, _⟩ := h.2 sampleStore rfl
  exact ⟨by decide, (h.1 0 2 sampleRecord (by decide) (by decide)).1,
    (hrecs 2 sampleRecord (by decide)).2.1 (by decide), hnone rfl⟩

/-! ## Errors of the status updater -/

theorem updateStatus_error_head {σ : Type} (d : SqlDriver σ) (db : σ)
    (userId objectKey err : String)
    (h : (updateStatus d db userId objectKey).2.2.2 = some err) :
    err.data.head? = some 'E' := by
  unfold updateStatus at h
  split at h
  · simp only [Option.some.injEq] at h
    subst h
    simp [String.data_append]
  · split at h
    · simp only [Option.some.injEq] at h
      subst h
      simp [String.data_append]
    · split at h
      · simp only [Option.some.injEq] at h
        subst h
        simp [String.data_append]
      · simp at h

theorem updateDoneLine_ne_of_head (a b : Int) (line : String)
    (h : line.data.head? = some 'E') : line ≠ updateDoneLine a b := by
  intro e
  rw [e] at h
  simp [updateDoneLine, String.data_append] at h

theorem receivedLine_ne_updateDoneLine (eventName bucket key : String) (a b : Int) :
    receivedLine eventName bucket key ≠ updateDoneLine a b := by
  intro e
  have := congrArg (fun s : String => s.data.get? 6) e
  simp [receivedLine, updateDoneLine, String.data_append] at this

/-- C10. `updateStatus` returns an error exactly when the statement fails, or
the result does not report the affected rows, or it does not report the last
insert id. On an error the two numbers are `0` and the message is that of the
first failure in this order; the iteration of the handler then logs the
received line and this error and no success line. Otherwise `updateStatus`
returns the two values the driver reported and a `nil` error. -/
theorem updateStatus_contract {σ : Type} (d : SqlDriver σ) (db : σ)
    (userId objectKey : String) :
    ((updateStatus d db userId objectKey).2.2.2 ≠ none ↔
      ((∃ e, (d.exec db updateStatement [userId, objectKey]).2 = .error e) ∨
       (∃ res e, (d.exec db updateStatement [userId, objectKey]).2 = .ok res ∧
          res.rowsAffected = .error e) ∨
       (∃ res e, (d.exec db updateStatement [userId, objectKey]).2 = .ok res ∧
          res.lastInsertId = .error e))) ∧
    ((updateStatus d db userId objectKey).2.2.2 ≠ none →
      (updateStatus d db userId objectKey).2.1 = 0 ∧
      (updateStatus d db userId objectKey).2.2.1 = 0) ∧
    ((∃ e, (d.exec db updateStatement [userId, objectKey]).2 = .error e) →
      (updateStatus d db userId objectKey).2.2.2 =
        some ("ERROR: Failed to update metadata database for userId '" ++ userId
          ++ "' and objectKey '" ++ objectKey ++ "'")) ∧
    ((∃ res e, (d.exec db updateStatement [userId, objectKey]).2 = .ok res ∧
        res.rowsAffected = .error e) →
      (updateStatus d db userId objectKey).2.2.2 =
        some ("ERROR: Failed to get affected rows for userId '" ++ userId
          ++ "' and objectKey '" ++ objectKey ++ "'")) ∧
    ((∃ res n e, (d.exec db updateStatement [userId, objectKey]).2 = .ok res ∧
        res.rowsAffected = .ok n ∧ res.lastInsertId = .error e) →
      (updateStatus d db userId objectKey).2.2.2 =
        some ("ERROR: Failed to get last update id for userId '" ++ userId
          ++ "' and objectKey '" ++ objectKey ++ "'")) ∧
    (∀ res n m, (d.exec db updateStatement [userId, objectKey]).2 = .ok res →
      res.rowsAffected = .ok n → res.lastInsertId = .ok m →
      (updateStatus d db userId objectKey).2 = (n, m, none)) ∧
    (∀ (expectedBucket : String) (i : Nat) (trace : List Event) (record : S3EventRecord)
        (err : String),
      sanityCheck record.bucketName expectedBucket record.eventName
        (stringsSplit record.objectKey '/') = none →
      stringsSplit record.objectKey '/' = [userId, objectKey] →
      (updateStatus d db userId objectKey).2.2.2 = some err →
      handlerBody d expectedBucket i ⟨db, trace⟩ record =
        .ok ⟨(updateStatus d db userId objectKey).1, trace ++
          [⟨some i, .log (receivedLine record.eventName record.bucketName record.objectKey)⟩,
           ⟨some i, .exec updateStatement [userId, objectKey]⟩,
           ⟨some i, .log err⟩]⟩ ∧
      ∀ a b, err ≠ updateDoneLine a b ∧
        receivedLine record.eventName record.bucketName record.objectKey ≠
          updateDoneLine a b) := by
  refine ⟨?_, ?_, ?_, ?_, ?_, ?_, ?_⟩
  · unfold updateStatus
    rcases d.exec db updateStatement [userId, objectKey] with ⟨db1, e | ⟨ra, li⟩⟩
    · simp
    · rcases ra with e1 | n <;> rcases li with e2 | m <;> simp
  · unfold updateStatus
    rcases d.exec db updateStatement [userId, objectKey] with ⟨db1, e | ⟨ra, li⟩⟩
    · simp
    · rcases ra with e1 | n <;> rcases li with e2 | m <;> simp
  · unfold updateStatus
    rcases d.exec db updateStatement [userId, objectKey] with ⟨db1, e | ⟨ra, li⟩⟩ <;> simp
  · unfold updateStatus
    rcases d.exec db updateStatement [userId, objectKey] with ⟨db1, e | ⟨ra, li⟩⟩
    · simp
    · rcases ra with e1 | n <;> rcases li with e2 | m <;> simp
  · unfold updateStatus
    rcases d.exec db updateStatement [userId, objectKey] with ⟨db1, e | ⟨ra, li⟩⟩
    · simp
    · rcases ra with e1 | n <;> rcases li with e2 | m <;> simp
  · intro res n m hres hra hli
    unfold updateStatus
    rcases hx : d.exec db updateStatement [userId, objectKey] with ⟨db1, r⟩
    rw [hx] at hres
    simp only at hres
    subst hres
    simp [hra, hli]
  · intro expectedBucket i trace record err hacc ht herr
    refine ⟨?_, ?_⟩
    · rw [handlerBody_accepted d expectedBucket i ⟨db, trace⟩ record userId objectKey hacc ht]
      have hl : updateLine (updateStatus d db userId objectKey).2 = err := by
        rcases hu : updateStatus d db userId objectKey with ⟨db1, ra, li, _ | e⟩
        · rw [hu] at herr
          simp at herr
        · rw [hu] at herr
          simp only [Option.some.injEq] at herr
          simp [updateLine, herr]
      simp only [hl]
    · intro a b
      exact ⟨updateDoneLine_ne_of_head a b err
          (updateStatus_error_head d db userId objectKey err herr),
        receivedLine_ne_updateDoneLine _ _ _ a b⟩

/-! ## The handler against the metadata store -/

theorem splitChars_of_not_mem (sep : Char) (b : List Char) (h : sep ∉ b) :
    splitChars sep b = [b] := by
  induction b with
  | nil => rfl
  | cons c cs ih =>
    simp only [List.mem_cons, not_or] at h
    have hc : ¬ c = sep := fun e => h.1 e.symm
    simp [splitChars, hc, ih h.2]

theorem splitChars_join (sep : Char) (a b : List Char) (ha : sep ∉ a) (hb : sep ∉ b) :
    splitChars sep (a ++ sep :: b) = [a, b] := by
  induction a with
  | nil => simp [splitChars, splitChars_of_not_mem sep b hb]
  | cons c cs ih =>
    simp only [List.mem_cons, not_or] at ha
    have hc : ¬ c = sep := fun e => ha.1 e.symm
    simp [splitChars, hc, ih ha.2]

theorem stringsSplit_join (u k : String) (hu : '/' ∉ u.data) (hk : '/' ∉ k.data) :
    stringsSplit (u ++ "/" ++ k) '/' = [u, k] := by
  have hd : (u ++ "/" ++ k).data = u.data ++ '/' :: k.data := by
    simp [String.data_append]
  simp [stringsSplit, hd, splitChars_join '/' u.data k.data hu hk]

theorem setUploaded_idem (s : Store) (u k : String) :
    (s.setUploaded u k).setUploaded u k = s.setUploaded u k := by
  unfold Store.setUploaded
  rw [List.map_map]
  apply List.map_congr_left
  intro row _
  by_cases h : row.user_id = u ∧ row.object_key = k <;> simp [h]

theorem setUploaded_status (s : Store) (u k : String) :
    ∀ row ∈ s.setUploaded u k, row.user_id = u ∧ row.object_key = k → row.status_id = 2 := by
  intro row hrow hkey
  unfold Store.setUploaded at hrow
  obtain ⟨r0, _, hr0⟩ := List.mem_map.mp hrow
  by_cases h : r0.user_id = u ∧ r0.object_key = k
  · simp only [h, and_self, if_true] at hr0
    rw [← hr0]
  · simp only [h, if_false] at hr0
    rw [hr0] at h
    exact absurd hkey h

theorem setUploaded_keeps_row (s : Store) (u k : String)
    (h : ∃ row ∈ s, row.user_id = u ∧ row.object_key = k) :
    ∃ row ∈ s.setUploaded u k, row.user_id = u ∧ row.object_key = k := by
  obtain ⟨row, hmem, hkey⟩ := h
  refine ⟨{ row with status_id := 2 }, ?_, hkey⟩
  unfold Store.setUploaded
  exact List.mem_map.mpr ⟨row, hmem, by simp [hkey]⟩

theorem setUploaded_other (s : Store) (u k : String) :
    (s.setUploaded u k).length = s.length ∧
    ∀ row ∈ s, ¬ (row.user_id = u ∧ row.object_key = k) → row ∈ s.setUploaded u k := by
  refine ⟨by simp [Store.setUploaded], ?_⟩
  intro row hmem hkey
  unfold Store.setUploaded
  exact List.mem_map.mpr ⟨row, hmem, by simp [hkey]⟩

/-- A batch of one accepted record against the store: the rows of its key
are set to uploaded and the handler returns `nil`. -/
theorem handler_store_single (env : String → Option String) (s : Store)
    (record : S3EventRecord) (t0 t1 : String)
    (hacc : sanityCheck record.bucketName
      ((loadConfig env).GetString "file_uploads_bucket_name") record.eventName
      (stringsSplit record.objectKey '/') = none)
    (ht : stringsSplit record.objectKey '/' = [t0, t1]) :
    (handler (storeDriver s) env { records := [record] }).db = some (s.setUploaded t0 t1) ∧
    (handler (storeDriver s) env { records := [record] }).outcome = .returned none := by
  have hb := fun (w : World Store) =>
    handlerBody_accepted (storeDriver s) _ 0 w record t0 t1 hacc ht
  have hdb : ∀ db : Store, (updateStatus (storeDriver s) db t0 t1).1 = db.setUploaded t0 t1 := by
    intro db
    rw [updateStatus_db]
    simp [storeDriver, storeExec]
  have hopen : ∀ a b, (storeDriver s).sqlOpen a b = .ok s := fun _ _ => rfl
  have hclose : ∀ x, (storeDriver s).close x = (x, none) := fun _ => rfl
  simp [handler, openDbConnection, processRecords, hb, hdb, runDeferredClose,
    closeDbConnection, hopen, hclose]

/-- Instance of C10 at a driver whose result reports neither count: the
message is the one for the affected rows, the first of the two failures. -/
theorem updateStatus_contract_witness :
    (∃ res e, (silentDriver.exec () updateStatement ["alice", "report.pdf"]).2 = .ok res ∧
      res.rowsAffected = .error e) ∧
    (updateStatus silentDriver () "alice" "report.pdf").2.2.2 =
      some ("ERROR: Failed to get affected rows for userId '" ++ "alice"
        ++ "' and objectKey '" ++ "report.pdf" ++ "'") :=
  have h : ∃ res e, (silentDriver.exec () updateStatement ["alice", "report.pdf"]).2 = .ok res ∧
      res.rowsAffected = .error e := ⟨_, _, rfl, rfl⟩
  ⟨h, (updateStatus_contract silentDriver () "alice" "report.pdf").2.2.2.1 h⟩

/-- C6, as stated, fails: for the user `alice` and the object key
`photos/img.jpg` the synthesized event has the key `alice/photos/img.jpg`,
which splits into three parts; the record is rejected, no statement runs and
the row keeps `status_id = 1`. -/
theorem round_trip_fails_for_key_with_slash :
    (sanityCheck "uploads" ((loadConfig sampleEnv).GetString "file_uploads_bucket_name")
      "ObjectCreated:Put" (stringsSplit ("alice" ++ "/" ++ "photos/img.jpg") '/')).isSome
        = true ∧
    execsAt (handler
      (storeDriver [{ user_id := "alice", object_key := "photos/img.jpg", status_id := 1 }])
      sampleEnv
      { records := [{ eventName := "ObjectCreated:Put",
                      bucketName := (loadConfig sampleEnv).GetString "file_uploads_bucket_name",
                      objectKey := "alice" ++ "/" ++ "photos/img.jpg" }] }).trace 0 = [] ∧
    (handler
      (storeDriver [{ user_id := "alice", object_key := "photos/img.jpg", status_id := 1 }])
      sampleEnv
      { records := [{ eventName := "ObjectCreated:Put",
                      bucketName := (loadConfig sampleEnv).GetString "file_uploads_bucket_name",
                      objectKey := "alice" ++ "/" ++ "photos/img.jpg" }] }).db =
      some [{ user_id := "alice", object_key := "photos/img.jpg", status_id := 1 }] := by
  decide

/-- C6, amended. For a user id `u` and an object key `k` that hold no `/`,
the handler run on the one event with the expected bucket, the event name
`ObjectCreated:Put` and the key `u/k`, against a store that has a row for
`(u, k)`, returns `nil` and leaves the store with every row of `(u, k)` at
`status_id = 2` (and there is such a row). -/
theorem round_trip (env : String → Option String) (s : Store) (u k : String)
    (hu : '/' ∉ u.data) (hk : '/' ∉ k.data)
    (hrow : ∃ row ∈ s, row.user_id = u ∧ row.object_key = k) :
    ∃ s1, (handler (storeDriver s) env
        { records := [{ eventName := "ObjectCreated:Put",
                        bucketName := (loadConfig env).GetString "file_uploads_bucket_name",
                        objectKey := u ++ "/" ++ k }] }).db = some s1 ∧
      (handler (storeDriver s) env
        { records := [{ eventName := "ObjectCreated:Put",
                        bucketName := (loadConfig env).GetString "file_uploads_bucket_name",
                        objectKey := u ++ "/" ++ k }] }).outcome = .returned none ∧
      (∃ row ∈ s1, row.user_id = u ∧ row.object_key = k) ∧
      ∀ row ∈ s1, row.user_id = u ∧ row.object_key = k → row.status_id = 2 := by
  have ht := stringsSplit_join u k hu hk
  have hacc : sanityCheck
      (S3EventRecord.mk "ObjectCreated:Put"
        ((loadConfig env).GetString "file_uploads_bucket_name") (u ++ "/" ++ k)).bucketName
      ((loadConfig env).GetString "file_uploads_bucket_name")
      (S3EventRecord.mk "ObjectCreated:Put"
        ((loadConfig env).GetString "file_uploads_bucket_name") (u ++ "/" ++ k)).eventName
      (stringsSplit (S3EventRecord.mk "ObjectCreated:Put"
        ((loadConfig env).GetString "file_uploads_bucket_name") (u ++ "/" ++ k)).objectKey '/')
      = none := by
    rw [sanityCheck_eq_none_iff _ _ _ _]
    exact ⟨rfl, rfl, by rw [ht]; rfl⟩
  obtain ⟨hdb, hout⟩ := handler_store_single env s _ u k hacc ht
  exact ⟨s.setUploaded u k, hdb, hout, setUploaded_keeps_row s u k hrow,
    setUploaded_status s u k⟩

/-- Witness of C6 (amended): `alice` and `report.pdf` on the sample store. -/
theorem round_trip_witness :
    '/' ∉ "alice".data ∧ '/' ∉ "report.pdf".data ∧
    (∃ row ∈ sampleStore, row.user_id = "alice" ∧ row.object_key = "report.pdf") ∧
    ∃ s1, (handler (storeDriver sampleStore) sampleEnv
        { records := [{ eventName := "ObjectCreated:Put",
                        bucketName := (loadConfig sampleEnv).GetString "file_uploads_bucket_name",
                        objectKey := "alice" ++ "/" ++ "report.pdf" }] }).db = some s1 ∧
      (handler (storeDriver sampleStore) sampleEnv
        { records := [{ eventName := "ObjectCreated:Put",
                        bucketName := (loadConfig sampleEnv).GetString "file_uploads_bucket_name",
                        objectKey := "alice" ++ "/" ++ "report.pdf" }] }).outcome
          = .returned none ∧
      (∃ row ∈ s1, row.user_id = "alice" ∧ row.object_key = "report.pdf") ∧
      ∀ row ∈ s1, row.user_id = "alice" ∧ row.object_key = "report.pdf" → row.status_id = 2 :=
  ⟨by decide, by decide, by decide,
    round_trip sampleEnv sampleStore "alice" "report.pdf" (by decide) (by decide) (by decide)⟩

/-- C7. For an accepted record and a store with a row for the record's
`(user_id, object_key)`, running the handler on the record and then again on
the store the first run left: the second run changes nothing, and the rows of
the key are at `status_id = 2` (and there is such a row). -/
theorem handler_idempotent (env : String → Option String) (s : Store)
    (record : S3EventRecord) (t0 t1 : String)
    (hacc : sanityCheck record.bucketName
      ((loadConfig env).GetString "file_uploads_bucket_name") record.eventName
      (stringsSplit record.objectKey '/') = none)
    (ht : stringsSplit record.objectKey '/' = [t0, t1])
    (hrow : ∃ row ∈ s, row.user_id = t0 ∧ row.object_key = t1) :
    ∃ s1 s2, (handler (storeDriver s) env { records := [record] }).db = some s1 ∧
      (handler (storeDriver s1) env { records := [record] }).db = some s2 ∧
      s2 = s1 ∧
      (∃ row ∈ s2, row.user_id = t0 ∧ row.object_key = t1) ∧
      ∀ row ∈ s2, row.user_id = t0 ∧ row.object_key = t1 → row.status_id = 2 := by
  refine ⟨s.setUploaded t0 t1, (s.setUploaded t0 t1).setUploaded t0 t1,
    (handler_store_single env s record t0 t1 hacc ht).1,
    (handler_store_single env (s.setUploaded t0 t1) record t0 t1 hacc ht).1,
    setUploaded_idem s t0 t1, ?_, ?_⟩
  · rw [setUploaded_idem]
    exact setUploaded_keeps_row s t0 t1 hrow
  · rw [setUploaded_idem]
    exact setUploaded_status s t0 t1

/-- Witness of C7: the happy-path record on the sample store. -/
theorem handler_idempotent_witness :
    sanityCheck sampleRecord.bucketName
      ((loadConfig sampleEnv).GetString "file_uploads_bucket_name") sampleRecord.eventName
      (stringsSplit sampleRecord.objectKey '/') = none ∧
    stringsSplit sampleRecord.objectKey '/' = ["alice", "report.pdf"] ∧
    ∃ s1 s2, (handler (storeDriver sampleStore) sampleEnv { records := [sampleRecord] }).db
        = some s1 ∧
      (handler (storeDriver s1) sampleEnv { records := [sampleRecord] }).db = some s2 ∧
      s2 = s1 ∧
      (∃ row ∈ s2, row.user_id = "alice" ∧ row.object_key = "report.pdf") ∧
      ∀ row ∈ s2, row.user_id = "alice" ∧ row.object_key = "report.pdf" → row.status_id = 2 :=
  ⟨by decide, by decide,
    handler_idempotent sampleEnv sampleStore sampleRecord "alice" "report.pdf"
      (by decide) (by decide) (by decide)⟩

/-! ## An unreachable database -/

/-- C8 on the code: with a connection string naming an unreachable host (and
with an empty one) `sql.Open` still hands out a handle, so the handler does not
abort: it runs the iteration of the record, attempts the update, logs its
failure and returns `nil`. -/
theorem handler_unreachable_database :
    (loadConfig sampleEnv).GetString "database_connection_string"
      = "user:pw@tcp(10.255.255.1:3306)/fa" ∧
    (handler unreachableDriver sampleEnv { records := [sampleRecord] }).outcome
      = .returned none ∧
    execsAt (handler unreachableDriver sampleEnv { records := [sampleRecord] }).trace 0
      = [(updateStatement, ["alice", "report.pdf"])] ∧
    linesAt (handler unreachableDriver sampleEnv { records := [sampleRecord] }).trace 0
      = ["INFO: Received event 'ObjectCreated:Put' for 'uploads/alice/report.pdf'.",
         "ERROR: Failed to update metadata database for userId 'alice' and objectKey 'report.pdf'"] ∧
    (loadConfig (fun _ => none)).GetString "database_connection_string" = "" ∧
    (handler unreachableDriver (fun _ => none)
      { records := [{ eventName := "ObjectCreated:Put", bucketName := "",
                      objectKey := "alice/report.pdf" }] }).outcome = .returned none ∧
    execsAt (handler unreachableDriver (fun _ => none)
      { records := [{ eventName := "ObjectCreated:Put", bucketName := "",
                      objectKey := "alice/report.pdf" }] }).trace 0
      = [(updateStatement, ["alice", "report.pdf"])] := by
  decide

/-- The handler aborts before the loop only when `sql.Open` itself reports an
error: it then panics with the text of `openDbConnection` and no record is
processed. -/
theorem handler_open_error_aborts :
    (loadConfig malformedDsnEnv).GetString "database_connection_string" = "fa-metadata" ∧
    (handler (parsingDriver sampleStore) malformedDsnEnv mixedBatch).outcome =
      .panicked ("Can't connect to a database!"
        ++ "invalid DSN: missing the slash separating the database name") ∧
    (handler (parsingDriver sampleStore) malformedDsnEnv mixedBatch).trace =
      [⟨none, .log "INFO: Received '3' events."⟩,
       ⟨none, .log ("Can't connect to a database!"
        ++ "invalid DSN: missing the slash separating the database name")⟩] := by
  decide

/-- The mixed batch of the scenarios: exactly one update is executed, for the
valid record, the two other records are logged and skipped, and the handler
returns `nil`. -/
theorem mixed_batch_scenario :
    (handler (storeDriver sampleStore) sampleEnv mixedBatch).outcome = .returned none ∧
    (handler (storeDriver sampleStore) sampleEnv mixedBatch).db =
      some [ { user_id := "alice", object_key := "report.pdf", status_id := 2 },
             { user_id := "bob", object_key := "report.pdf", status_id := 1 } ] ∧
    (handler (storeDriver sampleStore) sampleEnv mixedBatch).trace =
      [⟨none, .log "INFO: Received '3' events."⟩,
       ⟨some 0, .log "INFO: Received event 'ObjectCreated:Put' for 'other/bob/x.png'."⟩,
       ⟨some 0, .log ("WARN: Skipped event because of bucket missmatch. "
          ++ "Expected: 'uploads', Actual: 'other'")⟩,
       ⟨some 1, .log ("INFO: Received event 'ObjectCreated:Put' for "
          ++ "'uploads/alice/photos/img.jpg'.")⟩,
       ⟨some 1, .log ("ERROR: Object key has more parts. Expected: 2, Actual: 3, "
          ++ "[alice photos img.jpg]")⟩,
       ⟨some 2, .log ("INFO: Received event 'ObjectCreated:Put' for "
          ++ "'uploads/alice/report.pdf'.")⟩,
       ⟨some 2, .exec updateStatement ["alice", "report.pdf"]⟩,
       ⟨some 2, .log "INFO: Update done. LastUpdateId: 0, RowsAffected: 1"⟩] := by
  decide


end UploadConfirmation
